import Mathlib

/-
Verification development for the flux terminal file browser.

Shallow embedding of the directory-browsing state machine (`flux::Browser`,
src/src/core/browser.cpp) and the safe external-process file opener
(`fx::FileOpener`, src/fx/src/file_opener.cpp), together with the pure
handler-rule matcher (`findMatchingHandler`, src/fx/main.cpp).

Filesystem and OS primitives (exists / canonical / directory listing /
rename / copy / fork / waitpid ...) are abstracted as explicit environment
records; every C++ call that can throw or fail is a field of the
environment whose `Option` / `Bool` result drives the same control flow
as the source.  All definitions are executable so concrete runs can be
settled by `decide`.
-/

namespace Flux

/-- One entry of a directory listing (`Browser::FileEntry`,
src/include/flux/core/browser.h).  `size` is `uintmax_t` (a natural),
`modified_time` is `time_t` (an integer). -/
structure FileEntry where
  name : String
  full_path : String
  is_directory : Bool
  is_symlink : Bool
  is_executable : Bool
  is_hidden : Bool
  size : Nat
  modified_time : Int
deriving DecidableEq

/-- Sort modes (`Browser::SortMode`). -/
inductive SortMode
  | NAME
  | SIZE
  | DATE
  | TYPE
deriving DecidableEq

/-- Mutable state of `flux::Browser` (private fields in
src/include/flux/core/browser.h).  The `filter_` string is read by no
modelled operation and is omitted. -/
structure Browser where
  current_path : String
  entries : List FileEntry
  selected_index : Nat
  scroll_offset : Nat
  show_hidden : Bool
  sort_mode : SortMode
  error_message : String
deriving DecidableEq

/-- Byte-wise lexicographic strict comparison of character lists: the
embedding of `std::string operator<` used by the C++ sort comparators. -/
def lexLt : List Char → List Char → Bool
  | [], [] => false
  | [], _ :: _ => true
  | _ :: _, [] => false
  | a :: as, b :: bs =>
    if a.toNat < b.toNat then true
    else if b.toNat < a.toNat then false
    else lexLt as bs

/-- `std::string` strict less-than on the underlying characters. -/
def strLt (a b : String) : Bool := lexLt a.data b.data

/-- Strict comparator handed to `std::sort` by `Browser::sortEntries` for
each mode (src/src/core/browser.cpp:253-288).  On C++ bools,
`a.is_directory > b.is_directory` is `a.is_directory && !b.is_directory`. -/
def sortLt (m : SortMode) (a b : FileEntry) : Bool :=
  match m with
  | .NAME => strLt a.name b.name
  | .SIZE =>
    if a.is_directory != b.is_directory then a.is_directory && !b.is_directory
    else decide (a.size > b.size)
  | .DATE => decide (a.modified_time > b.modified_time)
  | .TYPE =>
    if a.is_directory != b.is_directory then a.is_directory && !b.is_directory
    else strLt a.name b.name

/-- The (non-strict) order guaranteed by `std::sort` for comparator
`sortLt m`: an element may be placed before another iff the latter is not
strictly less than it. -/
def sortRel (m : SortMode) (a b : FileEntry) : Prop := sortLt m b a = false

instance (m : SortMode) : DecidableRel (sortRel m) := fun a b => by
  unfold sortRel; infer_instance

/-- `Browser::sortEntries` (src/src/core/browser.cpp:240-289): the first
entry named ".." is pinned in place and everything after it is sorted with
the mode's comparator.  `std::sort` guarantees exactly a permutation of the
range that is ordered for the comparator; `List.insertionSort` is used as
the witness sorting algorithm realising that guarantee. -/
def sortEntries (m : SortMode) (es : List FileEntry) : List FileEntry :=
  let pre := es.takeWhile (fun e => !(e.name == ".."))
  match es.dropWhile (fun e => !(e.name == "..")) with
  | [] => List.insertionSort (sortRel m) es
  | p :: post => pre ++ p :: List.insertionSort (sortRel m) post

/-- Readable per-mode ordering key, equivalent to `sortRel` (proved below):
directories strictly first for SIZE and TYPE, then size descending
(SIZE) / name ascending (TYPE); name ascending alone for NAME; modified
time descending alone for DATE. -/
def keyLe (m : SortMode) (a b : FileEntry) : Prop :=
  match m with
  | .NAME => strLt b.name a.name = false
  | .SIZE =>
    (a.is_directory = true ∧ b.is_directory = false) ∨
      (a.is_directory = b.is_directory ∧ b.size ≤ a.size)
  | .DATE => b.modified_time ≤ a.modified_time
  | .TYPE =>
    (a.is_directory = true ∧ b.is_directory = false) ∨
      (a.is_directory = b.is_directory ∧ strLt b.name a.name = false)

/-- Entries are pairwise ordered for the mode's key. -/
def orderedPer (m : SortMode) (es : List FileEntry) : Prop :=
  es.Pairwise (keyLe m)

/-- The listing shape produced by a load / re-sort: any ".." entry sits at
index 0 only, and everything after the head is ordered for the mode; when
the head is not ".." the whole list is ordered. -/
def listingOk (m : SortMode) (es : List FileEntry) : Prop :=
  match es with
  | [] => True
  | h :: t =>
    (∀ e ∈ t, e.name ≠ "..") ∧ orderedPer m t ∧
      (h.name ≠ ".." → orderedPer m (h :: t))

section LexOrder

lemma lexLt_irrefl : ∀ l : List Char, lexLt l l = false := by
  intro l
  induction l with
  | nil => rfl
  | cons a as ih => simp [lexLt, ih]

lemma lexLt_asymm : ∀ a b : List Char, lexLt a b = true → lexLt b a = false := by
  intro a
  induction a with
  | nil =>
    intro b h
    cases b with
    | nil => simpa [lexLt] using h
    | cons y ys => simp [lexLt]
  | cons x xs ih =>
    intro b h
    cases b with
    | nil => simp [lexLt] at h
    | cons y ys =>
      simp only [lexLt] at h ⊢
      split_ifs at h ⊢ with h1 h2 h3 h4 <;> try omega
      · simp_all
      · exact ih ys h

lemma lexLt_trans :
    ∀ a b c : List Char, lexLt a b = true → lexLt b c = true → lexLt a c = true := by
  intro a
  induction a with
  | nil =>
    intro b c hab hbc
    cases b with
    | nil => simp [lexLt] at hab
    | cons y ys =>
      cases c with
      | nil => simp [lexLt] at hbc
      | cons z zs => simp [lexLt]
  | cons x xs ih =>
    intro b c hab hbc
    cases b with
    | nil => simp [lexLt] at hab
    | cons y ys =>
      cases c with
      | nil => simp [lexLt] at hbc
      | cons z zs =>
        simp only [lexLt] at hab hbc ⊢
        split_ifs at hab hbc ⊢ with h1 h2 h3 h4 h5 h6 <;> try omega
        all_goals try rfl
        all_goals try exact ih ys zs hab hbc
        all_goals omega

lemma lexLt_eq_of_not : ∀ a b : List Char,
    lexLt a b = false → lexLt b a = false → a = b := by
  intro a
  induction a with
  | nil =>
    intro b hab _
    cases b with
    | nil => rfl
    | cons y ys => simp [lexLt] at hab
  | cons x xs ih =>
    intro b hab hba
    cases b with
    | nil => simp [lexLt] at hba
    | cons y ys =>
      simp only [lexLt] at hab hba
      split_ifs at hab hba with h1 h2 <;> try omega
      have hnat : x.toNat = y.toNat := by omega
      have hx : x = y := by
        have h1 : Char.ofNat x.toNat = Char.ofNat y.toNat := by rw [hnat]
        rwa [Char.ofNat_toNat, Char.ofNat_toNat] at h1
      subst hx
      rw [ih ys hab hba]

/-- `fun a b => lexLt b a = false` is transitive. -/
lemma lexLe_trans {a b c : List Char}
    (hab : lexLt b a = false) (hbc : lexLt c b = false) : lexLt c a = false := by
  cases hca : lexLt c a with
  | false => rfl
  | true =>
    exfalso
    cases hcb : lexLt c b with
    | true => simp [hcb] at hbc
    | false =>
      cases hbc2 : lexLt b c with
      | true =>
        have := lexLt_trans _ _ _ hbc2 hca
        simp [this] at hab
      | false =>
        have hbceq : b = c := lexLt_eq_of_not _ _ hbc2 hcb
        subst hbceq
        simp [hca] at hab

end LexOrder

section SortOrder

lemma sortRel_total (m : SortMode) (a b : FileEntry) :
    sortRel m a b ∨ sortRel m b a := by
  unfold sortRel
  by_cases hab : sortLt m a b = false
  · exact Or.inr hab
  · left
    replace hab : sortLt m a b = true := by
      cases h : sortLt m a b
      · exact absurd h hab
      · rfl
    cases m with
    | NAME =>
      simp only [sortLt, strLt] at hab ⊢
      exact lexLt_asymm _ _ hab
    | SIZE =>
      simp only [sortLt] at hab ⊢
      cases ha : a.is_directory <;> cases hb : b.is_directory <;>
        simp_all <;> omega
    | DATE =>
      simp only [sortLt] at hab ⊢
      simp_all; omega
    | TYPE =>
      simp only [sortLt, strLt] at hab ⊢
      cases ha : a.is_directory <;> cases hb : b.is_directory <;> simp_all
      · exact lexLt_asymm _ _ hab
      · exact lexLt_asymm _ _ hab

lemma sortRel_trans (m : SortMode) (a b c : FileEntry) :
    sortRel m a b → sortRel m b c → sortRel m a c := by
  unfold sortRel
  intro hab hbc
  cases m with
  | NAME =>
    simp only [sortLt, strLt] at hab hbc ⊢
    exact lexLe_trans hab hbc
  | SIZE =>
    simp only [sortLt] at hab hbc ⊢
    cases ha : a.is_directory <;> cases hb : b.is_directory <;>
      cases hc : c.is_directory <;> simp_all <;> omega
  | DATE =>
    simp only [sortLt] at hab hbc ⊢
    simp_all; omega
  | TYPE =>
    simp only [sortLt, strLt] at hab hbc ⊢
    cases ha : a.is_directory <;> cases hb : b.is_directory <;>
      cases hc : c.is_directory <;> simp_all
    · exact lexLe_trans hab hbc
    · exact lexLe_trans hab hbc

instance (m : SortMode) : IsTotal FileEntry (sortRel m) :=
  ⟨sortRel_total m⟩

instance (m : SortMode) : IsTrans FileEntry (sortRel m) :=
  ⟨sortRel_trans m⟩

lemma sortRel_iff_keyLe (m : SortMode) (a b : FileEntry) :
    sortRel m a b ↔ keyLe m a b := by
  unfold sortRel
  cases m with
  | NAME => simp only [sortLt, strLt, keyLe]
  | SIZE =>
    simp only [sortLt, keyLe]
    cases ha : a.is_directory <;> cases hb : b.is_directory <;>
      simp_all <;> omega
  | DATE =>
    simp [sortLt, keyLe]
  | TYPE =>
    simp only [sortLt, strLt, keyLe]
    cases ha : a.is_directory <;> cases hb : b.is_directory <;> simp_all

lemma sortEntries_perm (m : SortMode) (es : List FileEntry) :
    List.Perm (sortEntries m es) es := by
  unfold sortEntries
  cases hd : es.dropWhile (fun e => !(e.name == "..")) with
  | nil => simpa using List.perm_insertionSort (sortRel m) es
  | cons p post =>
    have hsplit :
        es.takeWhile (fun e => !(e.name == "..")) ++ p :: post = es := by
      rw [← hd]
      exact List.takeWhile_append_dropWhile (fun e => !(e.name == "..")) es
    have h1 :
        List.Perm
          (es.takeWhile (fun e => !(e.name == "..")) ++
            p :: List.insertionSort (sortRel m) post)
          (es.takeWhile (fun e => !(e.name == "..")) ++ p :: post) :=
      List.Perm.append_left _
        (List.Perm.cons p (List.perm_insertionSort (sortRel m) post))
    rw [hsplit] at h1
    exact h1

lemma takeWhile_all {α : Type} (p : α → Bool) :
    ∀ l : List α, (∀ x ∈ l, p x = true) →
      l.takeWhile p = l ∧ l.dropWhile p = [] := by
  intro l
  induction l with
  | nil => intro _; exact ⟨rfl, rfl⟩
  | cons a as ih =>
    intro h
    have ha : p a = true := h a (by simp)
    have has : ∀ x ∈ as, p x = true := fun x hx => h x (by simp [hx])
    obtain ⟨h1, h2⟩ := ih has
    constructor
    · simp [List.takeWhile_cons, ha, h1]
    · simp [List.dropWhile_cons, ha, h2]

lemma orderedPer_insertionSort (m : SortMode) (es : List FileEntry) :
    orderedPer m (List.insertionSort (sortRel m) es) := by
  have h := List.sorted_insertionSort (sortRel m) es
  exact h.imp (fun hab => (sortRel_iff_keyLe m _ _).mp hab)

lemma listingOk_sortEntries (m : SortMode) (es : List FileEntry)
    (h : ∀ e ∈ es.tail, e.name ≠ "..") : listingOk m (sortEntries m es) := by
  cases es with
  | nil =>
    simp [sortEntries, listingOk, List.insertionSort]
  | cons h0 t =>
    by_cases h0dd : h0.name = ".."
    · have hpred : (fun e => !(e.name == "..")) h0 = false := by
        simp [h0dd]
      have htake :
          (h0 :: t).takeWhile (fun e => !(e.name == "..")) = [] := by
        simp [List.takeWhile_cons, hpred]
      have hdrop :
          (h0 :: t).dropWhile (fun e => !(e.name == "..")) = h0 :: t := by
        simp [List.dropWhile_cons, hpred]
      unfold sortEntries
      rw [hdrop, htake]
      simp only [List.nil_append, listingOk]
      refine ⟨?_, ?_, ?_⟩
      · intro e he
        have : e ∈ t :=
          (List.perm_insertionSort (sortRel m) t).mem_iff.mp he
        exact h e this
      · exact orderedPer_insertionSort m t
      · intro hne; exact absurd h0dd hne
    · have hall : ∀ e ∈ h0 :: t, (fun e => !(e.name == "..")) e = true := by
        intro e he
        rcases List.mem_cons.mp he with rfl | hmem
        · simp [h0dd]
        · simp [h e hmem]
      obtain ⟨htake, hdrop⟩ := takeWhile_all _ (h0 :: t) hall
      unfold sortEntries
      rw [hdrop]
      have hord := orderedPer_insertionSort m (h0 :: t)
      have hmem : ∀ e ∈ List.insertionSort (sortRel m) (h0 :: t),
          e.name ≠ ".." := by
        intro e he
        have : e ∈ h0 :: t :=
          (List.perm_insertionSort (sortRel m) (h0 :: t)).mem_iff.mp he
        rcases List.mem_cons.mp this with rfl | hmem
        · exact h0dd
        · exact h e hmem
      cases hs : List.insertionSort (sortRel m) (h0 :: t) with
      | nil => simp [listingOk]
      | cons s0 st =>
        rw [hs] at hord hmem
        refine ⟨?_, ?_, ?_⟩
        · intro e he; exact hmem e (by simp [he])
        · exact List.Pairwise.sublist (List.sublist_cons_self s0 st) hord
        · intro _; exact hord

end SortOrder

/-- Abstract filesystem / OS environment consumed by `Browser`: one field
per primitive the C++ calls.  An `Option` result models a primitive whose
C++ counterpart throws or sets an `error_code` (`none` = failure), `what`
stands for the `e.what()` exception texts, and `listDir` yields `none`
when the directory cannot be iterated while a `none` item models a child
whose per-entry stat threw (the load skips it and continues). -/
structure FsEnv where
  fsExists : String → Bool
  isDir : String → Bool
  canonical : String → Option String
  hasParentPath : String → Bool
  rootPath : String → String
  parentPath : String → String
  listDir : String → Option (List (Option FileEntry))
  createFileFails : String → Bool
  mkdirFails : String → Bool
  renameFails : String → String → Bool
  removeFails : String → Bool
  removeAllFails : String → Bool
  copyFails : String → String → Bool
  what : String

/-- `Browser::setError` (src/include/flux/core/browser.h). -/
def setError (b : Browser) (msg : String) : Browser :=
  { b with error_message := msg }

/-- `Browser::clearError` (src/include/flux/core/browser.h). -/
def clearError (b : Browser) : Browser := { b with error_message := "" }

/-- `Browser::hasError` (src/include/flux/core/browser.h). -/
def hasError (b : Browser) : Bool := !(b.error_message == "")

/-- The synthetic parent entry pushed by `loadDirectory` when not at the
filesystem root (src/src/core/browser.cpp:62-73). -/
def parentEntry (env : FsEnv) (np : String) : FileEntry :=
  { name := "..", full_path := env.parentPath np, is_directory := true,
    is_symlink := false, is_executable := false, is_hidden := false,
    size := 0, modified_time := 0 }

/-- `Browser::loadDirectory` (src/src/core/browser.cpp:36-117), returning
the new state and the bool result.  Every failure path returns before any
state field other than `error_message` has been assigned; on success the
rebuilt entries are installed, sorted, and the cursors reset. -/
def loadDirectory (env : FsEnv) (b : Browser) (path : String) :
    Browser × Bool :=
  let b := clearError b
  if !env.fsExists path then (setError b "Path does not exist", false)
  else if !env.isDir path then (setError b "Not a directory", false)
  else
    match env.canonical path with
    | none => (setError b ("Cannot resolve path: " ++ env.what), false)
    | some np =>
      let parent : List FileEntry :=
        if env.hasParentPath np && !(np == env.rootPath np) then
          [parentEntry env np]
        else []
      match env.listDir np with
      | none => (setError b ("Cannot read directory: " ++ env.what), false)
      | some raw =>
        let kept := (raw.filterMap id).filter
          (fun e => !(!b.show_hidden && e.is_hidden && !(e.name == "..")))
        let new_entries := parent ++ kept
        ({ b with
            entries := sortEntries b.sort_mode new_entries,
            current_path := np,
            selected_index := 0,
            scroll_offset := 0 }, true)

/-- `Browser::refresh` (src/include/flux/core/browser.h): reload the
current path. -/
def refresh (env : FsEnv) (b : Browser) : Browser × Bool :=
  loadDirectory env b b.current_path

/-- `Browser::selectNext` (src/src/core/browser.cpp:142-146). -/
def selectNext (b : Browser) : Browser :=
  if !b.entries.isEmpty && b.selected_index < b.entries.length - 1 then
    { b with selected_index := b.selected_index + 1 }
  else b

/-- `Browser::selectPrevious` (src/src/core/browser.cpp:148-152). -/
def selectPrevious (b : Browser) : Browser :=
  if !b.entries.isEmpty && b.selected_index > 0 then
    { b with selected_index := b.selected_index - 1 }
  else b

/-- `Browser::selectFirst` (src/src/core/browser.cpp:154-158). -/
def selectFirst (b : Browser) : Browser :=
  if !b.entries.isEmpty then { b with selected_index := 0 } else b

/-- `Browser::selectLast` (src/src/core/browser.cpp:160-164). -/
def selectLast (b : Browser) : Browser :=
  if !b.entries.isEmpty then
    { b with selected_index := b.entries.length - 1 }
  else b

/-- `Browser::pageDown` (src/src/core/browser.cpp:166-171). -/
def pageDown (b : Browser) (page_size : Nat) : Browser :=
  if !b.entries.isEmpty then
    { b with selected_index := min (b.selected_index + page_size) (b.entries.length - 1) }
  else b

/-- `Browser::pageUp` (src/src/core/browser.cpp:173-181). -/
def pageUp (b : Browser) (page_size : Nat) : Browser :=
  if !b.entries.isEmpty then
    if b.selected_index ≥ page_size then
      { b with selected_index := b.selected_index - page_size }
    else { b with selected_index := 0 }
  else b

/-- `Browser::getSelectedPath` (src/src/core/browser.cpp:183-188). -/
def getSelectedPath (b : Browser) : Option String :=
  (b.entries.get? b.selected_index).map (·.full_path)

/-- Successor in the fixed sort-mode ring TYPE→NAME→SIZE→DATE→TYPE
(src/src/core/browser.cpp:197-211). -/
def nextSortMode : SortMode → SortMode
  | .TYPE => .NAME
  | .NAME => .SIZE
  | .SIZE => .DATE
  | .DATE => .TYPE

/-- `Browser::cycleSortMode` (src/src/core/browser.cpp:197-213): advance
the ring, then re-sort the current entries in place. -/
def cycleSortMode (b : Browser) : Browser :=
  let m := nextSortMode b.sort_mode
  { b with sort_mode := m, entries := sortEntries m b.entries }

/-- `Browser::updateScroll` (src/src/core/browser.cpp:215-227). -/
def updateScroll (b : Browser) (viewport_height : Nat) : Browser :=
  if b.entries.isEmpty || viewport_height == 0 then
    { b with scroll_offset := 0 }
  else if b.selected_index < b.scroll_offset then
    { b with scroll_offset := b.selected_index }
  else if b.selected_index ≥ b.scroll_offset + viewport_height then
    { b with scroll_offset := b.selected_index - viewport_height + 1 }
  else b

/-- Name validation shared by the create / rename operations: reject `/`,
`\` and NUL (src/src/core/browser.cpp:387-389 etc.). -/
def hasInvalidChars (name : String) : Bool :=
  name.data.contains '/' || name.data.contains (Char.ofNat 92) ||
    name.data.contains (Char.ofNat 0)

/-- `operator/` on paths as used with validated names (which contain no
separator): append one component. -/
def joinPath (dir name : String) : String := dir ++ "/" ++ name

/-- `Browser::createFile` (src/src/core/browser.cpp:378-427).  The
`std::ofstream` failure and the surrounding catch are folded into
`createFileFails`. -/
def createFile (env : FsEnv) (b : Browser) (name : String) :
    Browser × Bool :=
  let b := clearError b
  if name == "" then (setError b "File name cannot be empty", false)
  else if hasInvalidChars name then
    (setError b "Invalid characters in file name", false)
  else
    let new_file_path := joinPath b.current_path name
    if env.fsExists new_file_path then
      (setError b "File already exists", false)
    else if env.createFileFails new_file_path then
      (setError b "Failed to create file", false)
    else
      let b1 := (loadDirectory env b b.current_path).1
      let b2 :=
        match b1.entries.findIdx? (fun e => e.name == name) with
        | some i => { b1 with selected_index := i }
        | none => b1
      (b2, true)

/-- `Browser::createDirectory` (src/src/core/browser.cpp:429-472). -/
def createDirectory (env : FsEnv) (b : Browser) (name : String) :
    Browser × Bool :=
  let b := clearError b
  if name == "" then (setError b "Directory name cannot be empty", false)
  else if hasInvalidChars name then
    (setError b "Invalid characters in directory name", false)
  else
    let new_dir_path := joinPath b.current_path name
    if env.fsExists new_dir_path then
      (setError b "Directory already exists", false)
    else if env.mkdirFails new_dir_path then
      (setError b ("Failed to create directory: " ++ env.what), false)
    else
      let b1 := (loadDirectory env b b.current_path).1
      let b2 :=
        match b1.entries.findIdx? (fun e => e.name == name) with
        | some i => { b1 with selected_index := i }
        | none => b1
      (b2, true)

/-- `Browser::renameEntry` (src/src/core/browser.cpp:474-517).  The third
component records the `fs::rename(source, destination)` call actually
performed, for observation.  Note the C++ renames
`getSelectedPath()->string()` — the entry at `selected_index_` — and never
reads `index`; it also dereferences the optional unchecked (undefined
behaviour when the selection is out of range, modelled here as a failed
no-op). -/
def renameEntry (env : FsEnv) (b : Browser) (index : Nat)
    (new_name : String) : Browser × Bool × Option (String × String) :=
  let _ := index
  let b := clearError b
  if new_name == "" then
    (setError b "File name cannot be empty", false, none)
  else if hasInvalidChars new_name then
    (setError b "Invalid characters in file name", false, none)
  else
    let new_file_path := joinPath b.current_path new_name
    if env.fsExists new_file_path then
      (setError b "File already exists", false, none)
    else
      match getSelectedPath b with
      | none => (b, false, none)
      | some current =>
        if env.renameFails current new_file_path then
          (setError b ("Failed to rename file: " ++ env.what), false, none)
        else
          let b1 := (loadDirectory env b b.current_path).1
          let b2 :=
            match b1.entries.findIdx? (fun e => e.name == new_name) with
            | some i => { b1 with selected_index := i }
            | none => b1
          (b2, true, some (current, new_file_path))

/-- `Browser::removeEntry` (src/src/core/browser.cpp:519-554).  Unlike the
other mutators it does not call `clearError` first; directories go through
`fs::remove_all`, files through `fs::remove`. -/
def removeEntry (env : FsEnv) (b : Browser) (index : Nat) :
    Browser × Bool :=
  if h : index < b.entries.length then
    let entry := b.entries.get ⟨index, h⟩
    if !env.fsExists entry.full_path then
      (setError b "The file or folder does not exist.", false)
    else if (if entry.is_directory then env.removeAllFails entry.full_path
             else env.removeFails entry.full_path) then
      (setError b "Failed to remove file or directory.", false)
    else
      let b1 := (loadDirectory env b b.current_path).1
      let b2 :=
        if b1.selected_index ≥ b1.entries.length && !b1.entries.isEmpty then
          { b1 with selected_index := b1.entries.length - 1 }
        else b1
      (b2, true)
  else (setError b "The index is beyond the bounds", false)

/-- Observable filesystem actions of `executePaste`, for stating
copy-only / reload-count properties.  `deleteSrc` exists so that "the
sources are never deleted or moved" is expressible; the embedding never
emits it, mirroring the C++ which contains no delete/move call. -/
inductive PasteEvent
  | copy (src dst : String)
  | reload
  | deleteSrc (p : String)
deriving DecidableEq

/-- The refresh-and-reselect step executed after each successful copy in
`Browser::executePaste` (src/src/core/browser.cpp:567-571): `refresh()`
followed by the loop that sets `selected_index_` to 0 when the listing is
non-empty. -/
def pasteStep (env : FsEnv) (b : Browser) : Browser :=
  let b1 := (loadDirectory env b b.current_path).1
  if !b1.entries.isEmpty then { b1 with selected_index := 0 } else b1

/-- The loop body of `Browser::executePaste`
(src/src/core/browser.cpp:564-572): each iteration copies one source into
the current path, then performs `pasteStep` (refresh and re-select); the
first `std::filesystem::copy` failure throws out of the whole loop. -/
def pasteLoop (env : FsEnv) (b : Browser) :
    List String → Browser × Bool × List PasteEvent
  | [] => (b, true, [])
  | s :: rest =>
    let dst := b.current_path
    if env.copyFails s dst then
      (setError b ("Something went wrong while pasting files: " ++ env.what),
        false, [])
    else
      let r := pasteLoop env (pasteStep env b) rest
      (r.1, r.2.1, .copy s dst :: .reload :: r.2.2)

/-- `Browser::executePaste` (src/src/core/browser.cpp:556-579).  `is_cut`
is accepted but never read by the body. -/
def executePaste (env : FsEnv) (b : Browser) (source_paths : List String)
    (is_cut : Bool) : Browser × Bool × List PasteEvent :=
  let _ := is_cut
  let b := clearError b
  if source_paths.isEmpty then
    (setError b "At least 1 file required to paste.", false, [])
  else pasteLoop env b source_paths

/-- Whether a `loadDirectory` call on `path` will succeed: this depends
only on the environment, not on the browser state. -/
def loadOk (env : FsEnv) (path : String) : Bool :=
  env.fsExists path && env.isDir path &&
    (match env.canonical path with
     | none => false
     | some np => (env.listDir np).isSome)

/-! ### fx::FileOpener (src/fx/src/file_opener.cpp) -/

/-- The double-quote character, written by code point to keep quote
handling explicit. -/
def quoteD : Char := Char.ofNat 34

/-- The single-quote character, by code point. -/
def quoteS : Char := Char.ofNat 39

/-- The NUL character used as the "no quote open" marker. -/
def nulChar : Char := Char.ofNat 0

/-- The character loop of `FileOpener::parseCommand`
(src/fx/src/file_opener.cpp:81-111), with the loop state (accumulated
parts, current token, in-quotes flag, active quote character) explicit. -/
def parseLoop : List Char → List String → String → Bool → Char → List String
  | [], parts, current, _, _ =>
    if !(current == "") then parts ++ [current] else parts
  | c :: cs, parts, current, in_quotes, quote_char =>
    if (c == quoteD || c == quoteS) && !in_quotes then
      parseLoop cs parts current true c
    else if c == quote_char && in_quotes then
      parseLoop cs parts current false nulChar
    else if c == ' ' && !in_quotes then
      if !(current == "") then parseLoop cs (parts ++ [current]) "" in_quotes quote_char
      else parseLoop cs parts current in_quotes quote_char
    else parseLoop cs parts (current.push c) in_quotes quote_char

/-- `FileOpener::parseCommand` (src/fx/src/file_opener.cpp:81-111). -/
def parseCommand (command : String) : List String :=
  parseLoop command.data [] "" false nulChar

/-- Abstract OS environment for `FileOpener`: filesystem queries plus the
outcome of the fork / waitpid dance of `executeUnix`.  `canonical` and
`relativeTo` return `none` where the C++ `std::filesystem` call would
throw (the surrounding catch turns that into a validation failure). -/
structure ProcEnv where
  fsExists : String → Bool
  canonical : String → Option String
  relativeTo : String → String → Option String
  forkFails : Bool
  waitpidFails : Bool
  childExited : Bool
  childExitStatus : Nat

/-- `FileOpener::OpenConfig` (src/fx/include/file_opener.hpp). -/
structure OpenConfig where
  command : String
  wait_for_completion : Bool
  validate_command : Bool
  allowed_base_dir : Option String
deriving DecidableEq

/-- `FileOpener::OpenResult` (src/fx/include/file_opener.hpp). -/
structure OpenResult where
  success : Bool
  error_message : String
deriving DecidableEq

/-- `FileOpener::validatePath` (src/fx/src/file_opener.cpp:113-138): the
path must exist and canonicalize; with a base directory, the relative form
of the canonical path w.r.t. the canonical base must not pass the
two-character ".." prefix test. -/
def validatePath (env : ProcEnv) (path : String)
    (base_dir : Option String) : Option String :=
  if !env.fsExists path then none
  else
    match env.canonical path with
    | none => none
    | some c =>
      match base_dir with
      | none => some c
      | some b =>
        match env.canonical b with
        | none => none
        | some bc =>
          match env.relativeTo c bc with
          | none => none
          | some rel =>
            if rel.data.length ≥ 2 && rel.data.take 2 == ['.', '.'] then
              none
            else some c

/-- Strip everything up to the last `/` or `\` from the executable token
(`exe.find_last_of("/\\")` in src/fx/src/file_opener.cpp:152-155);
backslash written by code point. -/
def execBasename (exe : String) : String :=
  String.mk
    ((exe.data.reverse.takeWhile
      (fun c => !(c == '/') && !(c == Char.ofNat 92))).reverse)

/-- The initial contents of `FileOpener::allowed_commands_`
(src/fx/src/file_opener.cpp:20-75). -/
def allowedCommandsInit : List String :=
  ["arc", "vim", "nvim", "vi", "nano", "emacs", "emacsclient", "code",
   "subl", "atom", "gedit", "kate", "kwrite", "notepad", "notepad++",
   "less", "more", "cat", "bat", "most",
   "feh", "sxiv", "eog", "eom", "gwenview", "gthumb", "gimp", "krita",
   "inkscape",
   "mpv", "vlc", "mplayer", "ffplay", "totem",
   "zathura", "evince", "okular", "mupdf", "xpdf",
   "firefox", "chrome", "chromium", "brave", "safari",
   "file-roller", "ark", "xarchiver"]

/-- `FileOpener::isCommandAllowed` (src/fx/src/file_opener.cpp:140-165).
The statics `use_whitelist_` and `allowed_commands_` are passed
explicitly.  The Windows-only `.exe` suffix strip is compiled out on the
Unix build modelled here. -/
def isCommandAllowed (use_whitelist : Bool) (allowed : List String)
    (command : String) : Bool :=
  if !use_whitelist then true
  else
    match parseCommand command with
    | [] => false
    | exe :: _ => allowed.contains (execBasename exe)

/-- Observable process actions of `executeUnix`, for stating that no
child is ever spawned on a refused open and which argv an exec receives. -/
inductive ProcEvent
  | suspend
  | fork (argv : List String)
  | resume
deriving DecidableEq

/-- `FileOpener::executeUnix` (src/fx/src/file_opener.cpp:177-341): the
launch outcome as seen by the caller, together with the trace of
suspend / fork / resume actions.  The child execs `parts` with the file
path appended as final argument; in blocking mode the result reflects
`waitpid` and the child's exit status, in detached mode it is always
`true`. -/
def executeUnix (env : ProcEnv) (parts : List String) (file_path : String)
    (wait : Bool) : Bool × List ProcEvent :=
  if env.forkFails then (false, [.suspend, .resume])
  else
    let argv := parts ++ [file_path]
    if wait then
      let ok :=
        if env.waitpidFails then false
        else if env.childExited then env.childExitStatus == 0
        else false
      (ok, [.suspend, .fork argv, .resume])
    else (true, [.suspend, .fork argv, .resume])

/-- `FileOpener::openWith` (src/fx/src/file_opener.cpp:394-425), with the
trace of process events of the dispatched execution ( `[]` when
validation fails before any dispatch). -/
def openWith (env : ProcEnv) (use_whitelist : Bool) (allowed : List String)
    (file_path : String) (config : OpenConfig) :
    OpenResult × List ProcEvent :=
  match validatePath env file_path config.allowed_base_dir with
  | none =>
    ({ success := false, error_message := "Invalid or inaccessible file path" }, [])
  | some canonical_path =>
    if config.validate_command &&
        !isCommandAllowed use_whitelist allowed config.command then
      ({ success := false,
         error_message := "Command not in allowed whitelist: " ++ config.command }, [])
    else
      match parseCommand config.command with
      | [] => ({ success := false, error_message := "Empty command" }, [])
      | exe :: args =>
        let r := executeUnix env (exe :: args) canonical_path
          config.wait_for_completion
        if !r.1 then
          ({ success := false,
             error_message := "Failed to execute command: " ++ config.command }, r.2)
        else ({ success := true, error_message := "" }, r.2)

/-! ### Handler-rule matcher (src/fx/main.cpp:705-726) -/

/-- `fx::FileHandler` (src/fx/include/config_loader.hpp:14-20). -/
structure FileHandler where
  extensions : List String
  pattern : String
  mime_type : String
  command : String
  terminal : Bool
deriving DecidableEq

/-- The filename component of a path: the characters after the last `/`
(`std::filesystem::path::filename`). -/
def afterLastSlash (l : List Char) : List Char :=
  (l.reverse.takeWhile (fun c => !(c == '/'))).reverse

/-- `std::filesystem::path::extension` on a filename: the suffix starting
at the rightmost period, empty when the filename is "." or ".." or has no
period or only a leading one. -/
def extCandidate (name : List Char) : List Char :=
  if name == ['.'] || name == ['.', '.'] then []
  else
    let rev := name.reverse
    let after := rev.takeWhile (fun c => !(c == '.'))
    match rev.dropWhile (fun c => !(c == '.')) with
    | [] => []
    | _ :: pre => if pre == [] then [] else '.' :: after.reverse

/-- The extension extraction of `findMatchingHandler`
(src/fx/main.cpp:707-711): `path.extension().string()` with a leading
period stripped. -/
def extensionOf (filePath : String) : String :=
  match extCandidate (afterLastSlash filePath.data) with
  | [] => ""
  | c :: rest => if c == '.' then String.mk rest else String.mk (c :: rest)

/-- The rule loop of `findMatchingHandler` (src/fx/main.cpp:713-723):
within a rule the listed extensions are checked for exact equality first,
then a pattern of the shape `*.ext` is compared against the extension;
the first rule to match wins. -/
def findHandlerLoop (extension : String) :
    List FileHandler → Option FileHandler
  | [] => none
  | h :: t =>
    if h.extensions.contains extension then some h
    else if !(h.pattern == "") && h.pattern.data.take 2 == ['*', '.'] then
      if extension == String.mk (h.pattern.data.drop 2) then some h
      else findHandlerLoop extension t
    else findHandlerLoop extension t

/-- `findMatchingHandler` (src/fx/main.cpp:705-726); the rule list stands
for `config.handler_rules`. -/
def findMatchingHandler (filePath : String) (rules : List FileHandler) :
    Option FileHandler :=
  findHandlerLoop (extensionOf filePath) rules

/-- Specification-side matching predicate for one rule: the extracted
extension is listed exactly, or the rule's pattern is `*.ext` with the
same extension.  Used to state that `findMatchingHandler` is a first-match
search. -/
def ruleMatches (extension : String) (r : FileHandler) : Bool :=
  r.extensions.contains extension ||
    (!(r.pattern == "") && r.pattern.data.take 2 == ['*', '.'] &&
      extension == String.mk (r.pattern.data.drop 2))

/-- Specification-side reference tokenizer: split a character list into
maximal runs of non-space characters, dropping empty runs — what the
spec's "splits into argv-style tokens only at space characters, all other
characters passed through literally" describes for quote-free input. -/
def specSplit : List Char → String → List String
  | [], cur => if !(cur == "") then [cur] else []
  | c :: cs, cur =>
    if c == ' ' then
      if !(cur == "") then cur :: specSplit cs "" else specSplit cs ""
    else specSplit cs (cur.push c)

section MatcherLemmas

lemma findHandlerLoop_eq_find? (ext : String) :
    ∀ rules : List FileHandler,
      findHandlerLoop ext rules = rules.find? (ruleMatches ext) := by
  intro rules
  induction rules with
  | nil => rfl
  | cons h t ih =>
    unfold findHandlerLoop
    rw [List.find?_cons]
    cases hc : h.extensions.contains ext with
    | true =>
      have hm : ruleMatches ext h = true := by
        unfold ruleMatches; rw [hc]; simp
      rw [hm]; simp
    | false =>
      cases hp : (!(h.pattern == "") && h.pattern.data.take 2 == ['*', '.']) with
      | true =>
        cases he : (ext == String.mk (h.pattern.data.drop 2)) with
        | true =>
          have hm : ruleMatches ext h = true := by
            unfold ruleMatches; rw [hc, hp, he]; simp
          rw [hm]; simp
        | false =>
          have hm : ruleMatches ext h = false := by
            unfold ruleMatches; rw [hc, hp, he]; simp
          rw [hm]; simpa using ih
      | false =>
        have hm : ruleMatches ext h = false := by
          unfold ruleMatches; rw [hc, hp]; simp
        rw [hm]; simpa using ih

end MatcherLemmas

section ParseLemmas

lemma parseLoop_no_quotes :
    ∀ (cs : List Char) (parts : List String) (cur : String),
      (∀ c ∈ cs, c ≠ quoteD ∧ c ≠ quoteS) →
      parseLoop cs parts cur false nulChar = parts ++ specSplit cs cur := by
  intro cs
  induction cs with
  | nil =>
    intro parts cur _
    by_cases hc : (cur == "") = true <;>
      simp [parseLoop, specSplit, hc]
  | cons c cs ih =>
    intro parts cur h
    have hq := h c (by simp)
    have hcq : (c == quoteD || c == quoteS) = false := by
      simp [hq.1, hq.2]
    have hrest : ∀ x ∈ cs, x ≠ quoteD ∧ x ≠ quoteS :=
      fun x hx => h x (by simp [hx])
    by_cases hsp : c = ' '
    · subst hsp
      by_cases hc : (cur == "") = true
      · have hcur : cur = "" := by simpa using hc
        subst hcur
        simp [parseLoop, specSplit, hcq, ih _ _ hrest]
      · replace hc : (cur == "") = false := by
          cases hv : (cur == "")
          · rfl
          · exact absurd hv hc
        simp [parseLoop, specSplit, hcq, hc, ih _ _ hrest]
    · have hspb : (c == ' ') = false := by simp [hsp]
      simp [parseLoop, specSplit, hcq, hspb, ih _ _ hrest]

end ParseLemmas

/-! ## Claims -/

/-- The `{extensions:["md"], command:"glow"}` rule from the C9 scenario. -/
def mdRule : FileHandler :=
  { extensions := ["md"], pattern := "", mime_type := "", command := "glow",
    terminal := false }

/-- C9: `findMatchingHandler` extracts the extension (text after the last
dot, leading dot stripped) and returns the first rule, in declared order,
whose listed extensions contain it exactly (case-sensitively) or whose
pattern is `*.ext` with the same `ext`; `none` when no rule matches — in
particular for extension-less "README", while "README.md" matches a rule
with extensions `["md"]` and "a.MD" does not match it (no lowercasing). -/
theorem C9_handler_first_match :
    (∀ (filePath : String) (rules : List FileHandler),
      findMatchingHandler filePath rules =
        rules.find? (ruleMatches (extensionOf filePath))) ∧
    extensionOf "README.md" = "md" ∧
    extensionOf "README" = "" ∧
    findMatchingHandler "README.md" [mdRule] = some mdRule ∧
    findMatchingHandler "README" [mdRule] = none ∧
    findMatchingHandler "a.MD" [mdRule] = none := by
  refine ⟨?_, by decide, by decide, by decide, by decide, by decide⟩
  intro filePath rules
  exact findHandlerLoop_eq_find? (extensionOf filePath) rules

/-- C6: `parseCommand` splits at unquoted spaces only; quote pairs group
(the quote characters are removed, quoted spaces kept inside one token);
every other character — `*`, `$`, `;`, backtick and the rest — passes
through literally: on quote-free input the result is exactly the
space-split of the raw characters, and `"vim; rm -rf /"` parses to the
literal tokens `["vim;", "rm", "-rf", "/"]`. -/
theorem C6_parse_literal_tokens :
    (∀ command : String,
      (∀ c ∈ command.data, c ≠ quoteD ∧ c ≠ quoteS) →
      parseCommand command = specSplit command.data "") ∧
    parseCommand "vim; rm -rf /" = ["vim;", "rm", "-rf", "/"] ∧
    parseCommand ("edit " ++ quoteD.toString ++ "my file" ++
      quoteD.toString ++ " now") = ["edit", "my file", "now"] ∧
    parseCommand ("a " ++ quoteS.toString ++ "b c" ++ quoteS.toString) =
      ["a", "b c"] := by
  refine ⟨?_, by decide, by decide, by decide⟩
  intro command h
  exact parseLoop_no_quotes command.data [] "" h

/-- Witness for C6 at a concrete quote-free command line. -/
theorem C6_parse_literal_tokens_witness :
    parseCommand "ls -la" = specSplit "ls -la".data "" :=
  C6_parse_literal_tokens.1 "ls -la" (by decide)

/-- A benign environment for `FileOpener` runs: every path exists and is
its own canonical form, fork and waitpid succeed, the child exits 0. -/
def envOpen : ProcEnv :=
  { fsExists := fun _ => true, canonical := fun p => some p,
    relativeTo := fun _ _ => some "", forkFails := false,
    waitpidFails := false, childExited := true, childExitStatus := 0 }

/-- An open request whose command is not on the whitelist but which asks
for validation. -/
def cfgC1 : OpenConfig :=
  { command := "evil", wait_for_completion := false,
    validate_command := true, allowed_base_dir := none }

/-- C1 counterexample: with the global `use_whitelist_` flag false (its
default), a config with `validate_command = true` and a command whose
basename is not whitelisted still opens successfully —
`isCommandAllowed` returns true unconditionally when the whitelist is
disabled (src/fx/src/file_opener.cpp:141-143), so the claimed
"regardless of the separate global use_whitelist flag" fails. -/
theorem C1_counterexample :
    cfgC1.validate_command = true ∧
    allowedCommandsInit.contains (execBasename "evil") = false ∧
    (openWith envOpen false allowedCommandsInit "f" cfgC1).1.success = true := by
  decide

/-- C1 (amended): when the global whitelist is enabled and
`validate_command` is set, any request whose path validates but whose
command's executable basename (directory prefix stripped) is not on the
whitelist fails with the command-not-allowed error, and nothing is
dispatched. -/
theorem C1_whitelist_gate (env : ProcEnv) (allowed : List String)
    (path : String) (config : OpenConfig) (c exe : String)
    (rest : List String)
    (hvc : config.validate_command = true)
    (hval : validatePath env path config.allowed_base_dir = some c)
    (hparse : parseCommand config.command = exe :: rest)
    (hexe : allowed.contains (execBasename exe) = false) :
    openWith env true allowed path config =
      ({ success := false,
         error_message := "Command not in allowed whitelist: " ++ config.command }, []) := by
  have hica : isCommandAllowed true allowed config.command = false := by
    unfold isCommandAllowed
    rw [hparse]
    simpa using hexe
  unfold openWith
  rw [hval]
  simp [hvc, hica]

/-- Witness for C1's amended theorem at a concrete refused command. -/
theorem C1_whitelist_gate_witness :
    openWith envOpen true allowedCommandsInit "f" cfgC1 =
      ({ success := false,
         error_message := "Command not in allowed whitelist: " ++ cfgC1.command }, []) :=
  C1_whitelist_gate envOpen allowedCommandsInit "f" cfgC1 "f" "evil" []
    (by decide) (by decide) (by decide) (by decide)

/-- C2: whenever the canonical path's relative form w.r.t. the canonical
base directory starts with "..", `validatePath` rejects it, `openWith`
returns a failed result with the invalid-path error, and the process
event trace is empty — no fork and no exec is ever reached. -/
theorem C2_base_escape_refused (env : ProcEnv) (uw : Bool)
    (allowed : List String) (path base : String) (config : OpenConfig)
    (hbase : config.allowed_base_dir = some base)
    (hrel : ∀ c bc, env.canonical path = some c →
      env.canonical base = some bc →
      ∃ rel, env.relativeTo c bc = some rel ∧ rel.data.take 2 = ['.', '.']) :
    validatePath env path config.allowed_base_dir = none ∧
    openWith env uw allowed path config =
      ({ success := false,
         error_message := "Invalid or inaccessible file path" }, []) := by
  have hv : validatePath env path (some base) = none := by
    unfold validatePath
    cases hex : env.fsExists path with
    | false => simp
    | true =>
      simp only [Bool.not_true, Bool.false_eq_true, if_false]
      cases hcp : env.canonical path with
      | none => simp
      | some c =>
        cases hcb : env.canonical base with
        | none => simp
        | some bc =>
          obtain ⟨rel, hr, ht⟩ := hrel c bc hcp hcb
          have hlen : rel.length ≥ 2 := by
            have hl := congrArg List.length ht
            simp [List.length_take] at hl
            have hd : rel.length = rel.data.length := rfl
            omega
          simp [hr, ht, hlen]
  refine ⟨by rw [hbase]; exact hv, ?_⟩
  unfold openWith
  rw [hbase, hv]

/-- Witness for C2: the spec's own scenario, a traversal path under a
base directory. -/
def envC2 : ProcEnv :=
  { fsExists := fun _ => true, canonical := fun p => some p,
    relativeTo := fun _ _ => some "../../etc/passwd", forkFails := false,
    waitpidFails := false, childExited := true, childExitStatus := 0 }

/-- The C2 scenario config: an explicit editor command restricted to
`/home/user/docs`. -/
def cfgC2 : OpenConfig :=
  { command := "vim", wait_for_completion := true,
    validate_command := false, allowed_base_dir := some "/home/user/docs" }

/-- Witness for C2 at the spec's concrete scenario. -/
theorem C2_base_escape_refused_witness :
    validatePath envC2 "../../etc/passwd" cfgC2.allowed_base_dir = none ∧
    openWith envC2 false allowedCommandsInit "../../etc/passwd" cfgC2 =
      ({ success := false,
         error_message := "Invalid or inaccessible file path" }, []) :=
  C2_base_escape_refused envC2 false allowedCommandsInit "../../etc/passwd"
    "/home/user/docs" cfgC2 rfl
    (by
      intro c bc _ _
      exact ⟨"../../etc/passwd", rfl, by decide⟩)

/-- C10: the base-directory guard is a plain two-character prefix test on
the relative path string, so it also rejects paths that stay inside the
base but whose first relative component merely begins with ".." (the
hypotheses force the relative form to not be an actual `..` traversal:
it is neither ".." itself nor does it start with "../"). -/
theorem C10_prefix_guard_overmatch (env : ProcEnv) (uw : Bool)
    (allowed : List String) (path base c bc rel : String)
    (config : OpenConfig)
    (hbase : config.allowed_base_dir = some base)
    (hex : env.fsExists path = true)
    (hcp : env.canonical path = some c)
    (hcb : env.canonical base = some bc)
    (hr : env.relativeTo c bc = some rel)
    (hpre : rel.data.take 2 = ['.', '.'])
    (hnotdd : rel ≠ "..")
    (hnotesc : rel.data.take 3 ≠ ['.', '.', '/']) :
    validatePath env path config.allowed_base_dir = none ∧
    (openWith env uw allowed path config).1.success = false := by
  have hv : validatePath env path (some base) = none := by
    unfold validatePath
    have hlen : rel.length ≥ 2 := by
      have hl := congrArg List.length hpre
      simp [List.length_take] at hl
      have hd : rel.length = rel.data.length := rfl
      omega
    simp [hex, hcp, hcb, hr, hpre, hlen]
  refine ⟨by rw [hbase]; exact hv, ?_⟩
  unfold openWith
  rw [hbase, hv]

/-- Witness for C10: a file literally named "..data" directly under the
base directory is refused although it does not escape the base. -/
def envC10 : ProcEnv :=
  { fsExists := fun _ => true, canonical := fun p => some p,
    relativeTo := fun _ _ => some "..data", forkFails := false,
    waitpidFails := false, childExited := true, childExitStatus := 0 }

/-- The C10 scenario config. -/
def cfgC10 : OpenConfig :=
  { command := "vim", wait_for_completion := true,
    validate_command := false, allowed_base_dir := some "/base" }

/-- Witness for C10 at the concrete "..data" entry. -/
theorem C10_prefix_guard_overmatch_witness :
    validatePath envC10 "/base/..data" cfgC10.allowed_base_dir = none ∧
    (openWith envC10 false allowedCommandsInit "/base/..data" cfgC10).1.success = false :=
  C10_prefix_guard_overmatch envC10 false allowedCommandsInit "/base/..data"
    "/base" "/base/..data" "/base" "..data" cfgC10 rfl (by decide) rfl rfl rfl
    (by decide) (by decide) (by decide)

/-! ### Browser lemmas -/

section BrowserLemmas

lemma append_ne_empty (s t : String) (h : s.length ≠ 0) : s ++ t ≠ "" := by
  intro heq
  have hl := String.length_append s t
  rw [heq] at hl
  have h0 : ("" : String).length = 0 := rfl
  omega

lemma clearError_clearError (b : Browser) :
    clearError (clearError b) = clearError b := rfl

lemma setError_clearError (b : Browser) (m : String) :
    setError (clearError b) m = setError b m := rfl

/-- Whether a load succeeds depends only on the environment and the path. -/
lemma loadDirectory_result (env : FsEnv) (b : Browser) (path : String) :
    (loadDirectory env b path).2 = loadOk env path := by
  unfold loadDirectory loadOk
  cases hex : env.fsExists path with
  | false => simp
  | true =>
    cases hdir : env.isDir path with
    | false => simp
    | true =>
      cases hcan : env.canonical path with
      | none => simp
      | some np =>
        cases hld : env.listDir np with
        | none => simp [hld]
        | some raw => simp [hld]

/-- A failed load leaves every field but the error message untouched and
reports a non-empty error. -/
lemma loadDirectory_fail_preserves (env : FsEnv) (b : Browser) (path : String)
    (h : (loadDirectory env b path).2 = false) :
    (loadDirectory env b path).1.current_path = b.current_path ∧
    (loadDirectory env b path).1.entries = b.entries ∧
    (loadDirectory env b path).1.selected_index = b.selected_index ∧
    (loadDirectory env b path).1.scroll_offset = b.scroll_offset ∧
    (loadDirectory env b path).1.error_message ≠ "" := by
  unfold loadDirectory at h ⊢
  cases hex : env.fsExists path with
  | false => simp_all [setError, clearError]
  | true =>
    cases hdir : env.isDir path with
    | false => simp_all [setError, clearError]
    | true =>
      cases hcan : env.canonical path with
      | none =>
        simp_all [setError, clearError]
        exact append_ne_empty _ _ (by decide)
      | some np =>
        cases hld : env.listDir np with
        | none =>
          simp_all [setError, clearError]
          exact append_ne_empty _ _ (by decide)
        | some raw => simp_all [hld]

/-- A successful load resets the cursors, clears the error and keeps the
sort mode and hidden filter. -/
lemma loadDirectory_success_state (env : FsEnv) (b : Browser) (path : String)
    (h : (loadDirectory env b path).2 = true) :
    (loadDirectory env b path).1.selected_index = 0 ∧
    (loadDirectory env b path).1.scroll_offset = 0 ∧
    (loadDirectory env b path).1.error_message = "" ∧
    (loadDirectory env b path).1.sort_mode = b.sort_mode ∧
    (loadDirectory env b path).1.show_hidden = b.show_hidden := by
  unfold loadDirectory at h ⊢
  cases hex : env.fsExists path with
  | false => simp_all
  | true =>
    cases hdir : env.isDir path with
    | false => simp_all
    | true =>
      cases hcan : env.canonical path with
      | none => simp_all
      | some np =>
        cases hld : env.listDir np with
        | none => simp_all [hld]
        | some raw => simp_all [hld, clearError]

/-- The entries produced by a successful load: synthetic parent (when not
at the root) in front of the filtered children, sorted. -/
lemma loadDirectory_success_entries (env : FsEnv) (b : Browser)
    (path : String) (h : (loadDirectory env b path).2 = true) :
    ∃ np raw, env.canonical path = some np ∧ env.listDir np = some raw ∧
      (loadDirectory env b path).1.entries =
        sortEntries b.sort_mode
          ((if env.hasParentPath np && !(np == env.rootPath np) then
              [parentEntry env np]
            else []) ++
            ((raw.filterMap id).filter
              (fun e => !(!b.show_hidden && e.is_hidden && !(e.name == ".."))))) := by
  unfold loadDirectory at h ⊢
  cases hex : env.fsExists path with
  | false => simp_all
  | true =>
    cases hdir : env.isDir path with
    | false => simp_all
    | true =>
      cases hcan : env.canonical path with
      | none => simp_all
      | some np =>
        cases hld : env.listDir np with
        | none => simp_all [hld]
        | some raw =>
          refine ⟨np, raw, rfl, hld, ?_⟩
          simp [hld, clearError]

/-- Stale error text never influences a load. -/
lemma loadDirectory_clearError (env : FsEnv) (b : Browser) (path : String) :
    loadDirectory env (clearError b) path = loadDirectory env b path := by
  unfold loadDirectory
  simp [clearError]

end BrowserLemmas

/-! ### Concrete states for counterexamples and witnesses -/

/-- A plain file `/d/a`. -/
def entA : FileEntry :=
  { name := "a", full_path := "/d/a", is_directory := false,
    is_symlink := false, is_executable := false, is_hidden := false,
    size := 1, modified_time := 0 }

/-- A plain file `/d/b`. -/
def entB : FileEntry :=
  { name := "b", full_path := "/d/b", is_directory := false,
    is_symlink := false, is_executable := false, is_hidden := false,
    size := 2, modified_time := 0 }

/-- A subdirectory `/d/z`. -/
def entZ : FileEntry :=
  { name := "z", full_path := "/d/z", is_directory := true,
    is_symlink := false, is_executable := false, is_hidden := false,
    size := 0, modified_time := 0 }

/-- A healthy environment rooted at the directory `/d` holding the files
`a` and `b`; every mutation primitive succeeds. -/
def envD : FsEnv :=
  { fsExists := fun p => p == "/d" || p == "/d/a" || p == "/d/b",
    isDir := fun p => p == "/d",
    canonical := fun p => some p,
    hasParentPath := fun _ => false,
    rootPath := fun p => p,
    parentPath := fun p => p,
    listDir := fun _ => some [some entA, some entB],
    createFileFails := fun _ => false,
    mkdirFails := fun _ => false,
    renameFails := fun _ _ => false,
    removeFails := fun _ => false,
    removeAllFails := fun _ => false,
    copyFails := fun _ _ => false,
    what := "io" }

/-- A browser showing `/d` with files `a` (selected) and `b`. -/
def bD : Browser :=
  { current_path := "/d", entries := [entA, entB], selected_index := 0,
    scroll_offset := 0, show_hidden := false, sort_mode := .TYPE,
    error_message := "" }

/-- C3: the claim says `renameEntry(index, new_name)` renames the
filesystem object at `entries[index]` for every valid `index`.  The code
instead renames `getSelectedPath()` — the entry at `selected_index_` —
and never reads `index` (src/src/core/browser.cpp:499): with `a` selected
and `renameEntry(1, "z")`, the rename performed on the filesystem is
`/d/a → /d/z`, not `/d/b → /d/z`.  The unused `index` parameter against
the spec's wording marks this as a slip in the code. -/
theorem C3_rename_ignores_index :
    (renameEntry envD bD 1 "z").2.1 = true ∧
    (renameEntry envD bD 1 "z").2.2 = some ("/d/a", "/d/z") ∧
    bD.entries.get? 1 = some entB ∧
    entB.full_path = "/d/b" ∧
    bD.selected_index = 0 ∧
    ("/d/a" : String) ≠ "/d/b" := by
  decide

/-- A browser whose entries are TYPE-sorted (directory `z` first, file
`a` second) — exactly what a TYPE-mode load of such a directory yields. -/
def bC4 : Browser :=
  { current_path := "/d", entries := [entZ, entA], selected_index := 0,
    scroll_offset := 0, show_hidden := false, sort_mode := .TYPE,
    error_message := "" }

/-- C4 counterexample: `cycleSortMode` is an operation other than
`loadDirectory` yet it changes `entries` — switching TYPE→NAME reorders
`[z(dir), a(file)]` into `[a, z]` — so "no operation other than
loadDirectory ever changes entries" fails as stated. -/
theorem C4_counterexample :
    (cycleSortMode bC4).entries ≠ bC4.entries := by
  decide

/-- C4 (amended): a failed `loadDirectory` leaves `current_path`,
`entries`, `selected_index` and `scroll_offset` unchanged and sets a
non-empty `error_message`; a successful one resets both cursors to 0;
the selection / paging / scrolling operations never change `entries` or
`current_path`; and `cycleSortMode` keeps `current_path` and only
permutes `entries` (same multiset) — so entry membership and the current
path change only through `loadDirectory` (directly or via
refresh / navigation). -/
theorem C4_state_discipline :
    (∀ (env : FsEnv) (b : Browser) (path : String),
      (loadDirectory env b path).2 = false →
      (loadDirectory env b path).1.current_path = b.current_path ∧
      (loadDirectory env b path).1.entries = b.entries ∧
      (loadDirectory env b path).1.selected_index = b.selected_index ∧
      (loadDirectory env b path).1.scroll_offset = b.scroll_offset ∧
      (loadDirectory env b path).1.error_message ≠ "") ∧
    (∀ (env : FsEnv) (b : Browser) (path : String),
      (loadDirectory env b path).2 = true →
      (loadDirectory env b path).1.selected_index = 0 ∧
      (loadDirectory env b path).1.scroll_offset = 0) ∧
    (∀ b : Browser,
      (selectNext b).entries = b.entries ∧
      (selectNext b).current_path = b.current_path ∧
      (selectPrevious b).entries = b.entries ∧
      (selectPrevious b).current_path = b.current_path ∧
      (selectFirst b).entries = b.entries ∧
      (selectFirst b).current_path = b.current_path ∧
      (selectLast b).entries = b.entries ∧
      (selectLast b).current_path = b.current_path) ∧
    (∀ (b : Browser) (n : Nat),
      (pageDown b n).entries = b.entries ∧
      (pageDown b n).current_path = b.current_path ∧
      (pageUp b n).entries = b.entries ∧
      (pageUp b n).current_path = b.current_path ∧
      (updateScroll b n).entries = b.entries ∧
      (updateScroll b n).current_path = b.current_path) ∧
    (∀ b : Browser,
      (cycleSortMode b).current_path = b.current_path ∧
      List.Perm (cycleSortMode b).entries b.entries) := by
  refine ⟨?_, ?_, ?_, ?_, ?_⟩
  · intro env b path h
    exact loadDirectory_fail_preserves env b path h
  · intro env b path h
    obtain ⟨h1, h2, _, _, _⟩ := loadDirectory_success_state env b path h
    exact ⟨h1, h2⟩
  · intro b
    refine ⟨?_, ?_, ?_, ?_, ?_, ?_, ?_, ?_⟩ <;>
      first
        | (unfold selectNext; split <;> rfl)
        | (unfold selectPrevious; split <;> rfl)
        | (unfold selectFirst; split <;> rfl)
        | (unfold selectLast; split <;> rfl)
  · intro b n
    refine ⟨?_, ?_, ?_, ?_, ?_, ?_⟩ <;>
      first
        | (unfold pageDown; split <;> rfl)
        | (unfold pageUp; split <;> (try split) <;> rfl)
        | (unfold updateScroll; split <;> (try split) <;> (try split) <;> rfl)
  · intro b
    exact ⟨rfl, sortEntries_perm _ _⟩

/-- Witness for C4's amended theorem: a load of a missing path fails and
preserves the whole state; the healthy load resets the cursors. -/
theorem C4_state_discipline_witness :
    ((loadDirectory envD bD "/nope").1.current_path = bD.current_path ∧
     (loadDirectory envD bD "/nope").1.entries = bD.entries ∧
     (loadDirectory envD bD "/nope").1.selected_index = bD.selected_index ∧
     (loadDirectory envD bD "/nope").1.scroll_offset = bD.scroll_offset ∧
     (loadDirectory envD bD "/nope").1.error_message ≠ "") ∧
    ((loadDirectory envD bD "/d").1.selected_index = 0 ∧
     (loadDirectory envD bD "/d").1.scroll_offset = 0) :=
  ⟨C4_state_discipline.1 envD bD "/nope" (by decide),
   C4_state_discipline.2.1 envD bD "/d" (by decide)⟩

/-- The environment for the C8 counterexample: the file `/d/a` exists and
can be removed, but the directory `/d` itself has vanished, so the reload
after the successful removal fails. -/
def envC8 : FsEnv :=
  { fsExists := fun p => p == "/d/a",
    isDir := fun _ => false,
    canonical := fun p => some p,
    hasParentPath := fun _ => false,
    rootPath := fun p => p,
    parentPath := fun p => p,
    listDir := fun _ => none,
    createFileFails := fun _ => false,
    mkdirFails := fun _ => false,
    renameFails := fun _ _ => false,
    removeFails := fun _ => false,
    removeAllFails := fun _ => false,
    copyFails := fun _ _ => false,
    what := "io" }

/-- A browser on `/d` with one entry and a stale error from an earlier
failed operation. -/
def bC8 : Browser :=
  { current_path := "/d", entries := [entA], selected_index := 0,
    scroll_offset := 0, show_hidden := false, sort_mode := .TYPE,
    error_message := "stale failure" }

/-- C8 counterexample: `removeEntry` succeeds (returns true) — the entry
exists and is removed — yet `hasError()` is true afterwards, because
`removeEntry` never clears the error at the start
(src/src/core/browser.cpp:519-554) and its internal reload failed and set
a fresh error while the call still reported success. -/
theorem C8_counterexample :
    (removeEntry envC8 bC8 0).2 = true ∧
    hasError (removeEntry envC8 bC8 0).1 = true := by
  decide

/-- C5: after every successful `loadDirectory` and every `cycleSortMode`
(from a listing whose tail holds no ".."), the ".." entry — if present —
is at index 0, everything after it is pairwise ordered by the mode's key
(`keyLe`: directories-first then size descending for SIZE, name ascending
alone for NAME, modified-time descending alone for DATE,
directories-first then name ascending for TYPE), and under SIZE / TYPE no
directory ever follows a file.  The environment hypothesis states that
directory iteration never yields a child named ".." (as with
`std::filesystem::directory_iterator`). -/
theorem C5_sorted_listing :
    (∀ (env : FsEnv) (b : Browser) (path : String),
      (∀ p l oe e, env.listDir p = some l → oe ∈ l → oe = some e →
        e.name ≠ "..") →
      (loadDirectory env b path).2 = true →
      listingOk (loadDirectory env b path).1.sort_mode
        (loadDirectory env b path).1.entries) ∧
    (∀ b : Browser, (∀ e ∈ b.entries.tail, e.name ≠ "..") →
      listingOk (cycleSortMode b).sort_mode (cycleSortMode b).entries) ∧
    (∀ (m : SortMode) (es : List FileEntry),
      (m = SortMode.SIZE ∨ m = SortMode.TYPE) → orderedPer m es →
      es.Pairwise (fun a b => b.is_directory = true → a.is_directory = true)) := by
  refine ⟨?_, ?_, ?_⟩
  · intro env b path hno htrue
    obtain ⟨np, raw, hcan, hld, hent⟩ :=
      loadDirectory_success_entries env b path htrue
    obtain ⟨_, _, _, hsm, _⟩ := loadDirectory_success_state env b path htrue
    rw [hent, hsm]
    apply listingOk_sortEntries
    have hkept : ∀ e ∈ (raw.filterMap id).filter
        (fun e => !(!b.show_hidden && e.is_hidden && !(e.name == ".."))),
        e.name ≠ ".." := by
      intro e he
      have he2 : e ∈ raw.filterMap id := List.mem_of_mem_filter he
      obtain ⟨oe, hoe, hid⟩ := List.mem_filterMap.mp he2
      exact hno np raw oe e hld hoe (by simpa using hid)
    intro e he
    by_cases hp : (env.hasParentPath np && !(np == env.rootPath np)) = true
    · rw [if_pos hp] at he
      simp only [List.singleton_append, List.tail_cons] at he
      exact hkept e he
    · rw [if_neg hp] at he
      simp only [List.nil_append] at he
      exact hkept e (List.mem_of_mem_tail he)
  · intro b h
    exact listingOk_sortEntries (nextSortMode b.sort_mode) b.entries h
  · intro m es hm hord
    refine hord.imp ?_
    intro a c hk
    intro hcdir
    rcases hm with rfl | rfl
    · rcases hk with ⟨ha, _⟩ | ⟨heq, _⟩
      · exact ha
      · rw [heq]; exact hcdir
    · rcases hk with ⟨ha, _⟩ | ⟨heq, _⟩
      · exact ha
      · rw [heq]; exact hcdir

/-- Witness for C5 at a healthy concrete load. -/
theorem C5_sorted_listing_witness :
    (loadDirectory envD bD "/d").2 = true ∧
    listingOk (loadDirectory envD bD "/d").1.sort_mode
      (loadDirectory envD bD "/d").1.entries :=
  ⟨by decide,
    C5_sorted_listing.1 envD bD "/d"
      (by
        intro p l oe e h1 h2 h3
        injection h1 with h1
        subst h1
        subst h3
        rcases List.mem_cons.mp h2 with h2 | h2
        · injection h2 with h2
          subst h2
          decide
        · rcases List.mem_cons.mp h2 with h2 | h2
          · injection h2 with h2
            subst h2
            decide
          · exact absurd h2 (List.not_mem_nil _))
      (by decide)⟩

/-- Recognizer for reload events. -/
def isReload : PasteEvent → Bool
  | .reload => true
  | _ => false

/-- Recognizer for copy events. -/
def isCopy : PasteEvent → Bool
  | .copy _ _ => true
  | _ => false

/-- Recognizer for source-delete events. -/
def isDelete : PasteEvent → Bool
  | .deleteSrc _ => true
  | _ => false

/-- The copied source of an event, if any. -/
def copySrc : PasteEvent → Option String
  | .copy s _ => some s
  | _ => none

/-- C7 counterexample: pasting two sources triggers a reload after each
copy — two reloads, the first of which happens before the second copy —
not one reload after all copies (`refresh()` sits inside the loop,
src/src/core/browser.cpp:565-571). -/
theorem C7_counterexample :
    (executePaste envD bD ["/s1", "/s2"] false).2.1 = true ∧
    (executePaste envD bD ["/s1", "/s2"] false).2.2 =
      [.copy "/s1" "/d", .reload, .copy "/s2" "/d", .reload] ∧
    (executePaste envD bD ["/s1", "/s2"] false).2.2.countP isReload = 2 := by
  decide

lemma pasteLoop_cons_fail (env : FsEnv) (b : Browser) (s : String)
    (rest : List String) (h : env.copyFails s b.current_path = true) :
    pasteLoop env b (s :: rest) =
      (setError b ("Something went wrong while pasting files: " ++ env.what),
        false, []) := by
  conv_lhs => unfold pasteLoop
  simp only [h]
  simp

lemma pasteLoop_cons_ok (env : FsEnv) (b : Browser) (s : String)
    (rest : List String) (h : env.copyFails s b.current_path = false) :
    pasteLoop env b (s :: rest) =
      ((pasteLoop env (pasteStep env b) rest).1,
       (pasteLoop env (pasteStep env b) rest).2.1,
       .copy s b.current_path :: .reload ::
         (pasteLoop env (pasteStep env b) rest).2.2) := by
  conv_lhs => unfold pasteLoop
  simp only [h]
  simp

lemma pasteLoop_spec (env : FsEnv) :
    ∀ (srcs : List String) (b : Browser),
      (pasteLoop env b srcs).2.2.countP isDelete = 0 ∧
      (pasteLoop env b srcs).2.2.countP isReload =
        (pasteLoop env b srcs).2.2.countP isCopy ∧
      (∃ k, (pasteLoop env b srcs).2.2.filterMap copySrc = srcs.take k) ∧
      ((pasteLoop env b srcs).2.1 = true →
        (pasteLoop env b srcs).2.2.filterMap copySrc = srcs) ∧
      ((pasteLoop env b srcs).2.1 = false →
        (pasteLoop env b srcs).1.error_message =
          "Something went wrong while pasting files: " ++ env.what) := by
  intro srcs
  induction srcs with
  | nil =>
    intro b
    refine ⟨rfl, rfl, ⟨0, rfl⟩, fun _ => rfl, fun h => ?_⟩
    simp [pasteLoop] at h
  | cons s rest ih =>
    intro b
    cases hcf : env.copyFails s b.current_path with
    | true =>
      rw [pasteLoop_cons_fail env b s rest hcf]
      refine ⟨rfl, rfl, ⟨0, rfl⟩, ?_, fun _ => rfl⟩
      intro h
      simp at h
    | false =>
      rw [pasteLoop_cons_ok env b s rest hcf]
      obtain ⟨ih1, ih2, ⟨k, ih3⟩, ih4, ih5⟩ := ih (pasteStep env b)
      refine ⟨?_, ?_, ⟨k + 1, ?_⟩, ?_, ?_⟩
      · simpa [List.countP_cons, isDelete] using ih1
      · simp [List.countP_cons, isReload, isCopy]
        omega
      · simp only [List.filterMap_cons, copySrc]
        rw [ih3]
        rfl
      · intro h
        simp only [List.filterMap_cons, copySrc]
        rw [ih4 h]
      · intro h
        exact ih5 h

/-- C7 (amended): `executePaste` ignores `isCut` entirely (identical
results for both values), never deletes or moves a source, copies the
sources in order stopping at the first failure (the copies performed are
always a prefix of the source list, and all of them exactly when the call
succeeds), reports a failure with a non-empty error message, and reloads
once after each successful copy — inside the loop — rather than exactly
once after all copies. -/
theorem C7_paste_copies_only :
    (∀ (env : FsEnv) (b : Browser) (srcs : List String),
      executePaste env b srcs true = executePaste env b srcs false) ∧
    (∀ (env : FsEnv) (b : Browser) (srcs : List String) (cut : Bool),
      (executePaste env b srcs cut).2.2.countP isDelete = 0) ∧
    (∀ (env : FsEnv) (b : Browser) (srcs : List String) (cut : Bool),
      (executePaste env b srcs cut).2.2.countP isReload =
        (executePaste env b srcs cut).2.2.countP isCopy) ∧
    (∀ (env : FsEnv) (b : Browser) (srcs : List String) (cut : Bool),
      ∃ k, (executePaste env b srcs cut).2.2.filterMap copySrc = srcs.take k) ∧
    (∀ (env : FsEnv) (b : Browser) (srcs : List String) (cut : Bool),
      (executePaste env b srcs cut).2.1 = true →
      (executePaste env b srcs cut).2.2.filterMap copySrc = srcs) ∧
    (∀ (env : FsEnv) (b : Browser) (srcs : List String) (cut : Bool),
      (executePaste env b srcs cut).2.1 = false →
      (executePaste env b srcs cut).1.error_message ≠ "") := by
  have hemp : ∀ (env : FsEnv) (b : Browser) (cut : Bool) (srcs : List String),
      srcs.isEmpty = true →
      executePaste env b srcs cut =
        (setError (clearError b) "At least 1 file required to paste.",
          false, []) := by
    intro env b cut srcs h
    unfold executePaste
    simp [h]
  refine ⟨fun _ _ _ => rfl, ?_, ?_, ?_, ?_, ?_⟩
  · intro env b srcs cut
    cases hs : srcs.isEmpty with
    | true => rw [hemp env b cut srcs hs]; rfl
    | false =>
      unfold executePaste
      simp only [hs, Bool.false_eq_true, if_false]
      exact (pasteLoop_spec env srcs (clearError b)).1
  · intro env b srcs cut
    cases hs : srcs.isEmpty with
    | true => rw [hemp env b cut srcs hs]; rfl
    | false =>
      unfold executePaste
      simp only [hs, Bool.false_eq_true, if_false]
      exact (pasteLoop_spec env srcs (clearError b)).2.1
  · intro env b srcs cut
    cases hs : srcs.isEmpty with
    | true => rw [hemp env b cut srcs hs]; exact ⟨0, rfl⟩
    | false =>
      unfold executePaste
      simp only [hs, Bool.false_eq_true, if_false]
      exact (pasteLoop_spec env srcs (clearError b)).2.2.1
  · intro env b srcs cut h
    cases hs : srcs.isEmpty with
    | true =>
      rw [hemp env b cut srcs hs] at h
      simp at h
    | false =>
      unfold executePaste at h ⊢
      simp only [hs, Bool.false_eq_true, if_false] at h ⊢
      exact (pasteLoop_spec env srcs (clearError b)).2.2.2.1 h
  · intro env b srcs cut h
    cases hs : srcs.isEmpty with
    | true =>
      rw [hemp env b cut srcs hs]
      exact fun hx => by
        have hx2 : ("At least 1 file required to paste." : String) = "" := hx
        exact absurd hx2 (by decide)
    | false =>
      unfold executePaste at h ⊢
      simp only [hs, Bool.false_eq_true, if_false] at h ⊢
      rw [(pasteLoop_spec env srcs (clearError b)).2.2.2.2 h]
      exact append_ne_empty _ _ (by decide)

section ErrorDiscipline

lemma loadDirectory_error_of_ok (env : FsEnv) (b : Browser) (path : String)
    (h : loadOk env path = true) :
    (loadDirectory env b path).1.error_message = "" := by
  have ht : (loadDirectory env b path).2 = true := by
    rw [loadDirectory_result]; exact h
  exact (loadDirectory_success_state env b path ht).2.2.1

lemma hasError_of_empty {b : Browser} (h : b.error_message = "") :
    hasError b = false := by
  simp [hasError, h]

lemma createFile_clearError (env : FsEnv) (b : Browser) (name : String) :
    createFile env (clearError b) name = createFile env b name := by
  unfold createFile
  rw [clearError_clearError]

lemma createDirectory_clearError (env : FsEnv) (b : Browser) (name : String) :
    createDirectory env (clearError b) name = createDirectory env b name := by
  unfold createDirectory
  rw [clearError_clearError]

lemma renameEntry_clearError (env : FsEnv) (b : Browser) (i : Nat)
    (n : String) :
    renameEntry env (clearError b) i n = renameEntry env b i n := by
  unfold renameEntry
  rw [clearError_clearError]

lemma executePaste_clearError (env : FsEnv) (b : Browser)
    (srcs : List String) (cut : Bool) :
    executePaste env (clearError b) srcs cut = executePaste env b srcs cut := by
  unfold executePaste
  rw [clearError_clearError]

lemma removeEntry_clearError (env : FsEnv) (b : Browser) (i : Nat) :
    removeEntry env (clearError b) i = removeEntry env b i := by
  cases b with
  | mk c ent sel sc sh sm err =>
    have hld : loadDirectory env (Browser.mk c ent sel sc sh sm "") c =
        loadDirectory env (Browser.mk c ent sel sc sh sm err) c :=
      loadDirectory_clearError env (Browser.mk c ent sel sc sh sm err) c
    unfold removeEntry
    dsimp only [clearError, setError]
    simp only [hld]

lemma createFile_true_noError (env : FsEnv) (b : Browser) (name : String)
    (hok : loadOk env b.current_path = true)
    (h : (createFile env b name).2 = true) :
    hasError (createFile env b name).1 = false := by
  unfold createFile at h ⊢
  have hokB : loadOk env (clearError b).current_path = true := hok
  generalize hB : clearError b = B at h hokB ⊢
  by_cases c1 : (name == "") = true
  · simp [c1] at h
  · by_cases c2 : hasInvalidChars name = true
    · simp [c1, c2] at h
    · by_cases c3 : env.fsExists (joinPath B.current_path name) = true
      · simp [c1, c2, c3] at h
      · by_cases c4 : env.createFileFails (joinPath B.current_path name) = true
        · simp [c1, c2, c3, c4] at h
        · have herr :
            (loadDirectory env B B.current_path).1.error_message = "" :=
            loadDirectory_error_of_ok env B B.current_path hokB
          cases hidx :
            (loadDirectory env B B.current_path).1.entries.findIdx?
              (fun e => e.name == name) with
          | none => simp [c1, c2, c3, c4, hidx, hasError, herr]
          | some i => simp [c1, c2, c3, c4, hidx, hasError, herr]

lemma createDirectory_true_noError (env : FsEnv) (b : Browser)
    (name : String) (hok : loadOk env b.current_path = true)
    (h : (createDirectory env b name).2 = true) :
    hasError (createDirectory env b name).1 = false := by
  unfold createDirectory at h ⊢
  have hokB : loadOk env (clearError b).current_path = true := hok
  generalize hB : clearError b = B at h hokB ⊢
  by_cases c1 : (name == "") = true
  · simp [c1] at h
  · by_cases c2 : hasInvalidChars name = true
    · simp [c1, c2] at h
    · by_cases c3 : env.fsExists (joinPath B.current_path name) = true
      · simp [c1, c2, c3] at h
      · by_cases c4 : env.mkdirFails (joinPath B.current_path name) = true
        · simp [c1, c2, c3, c4] at h
        · have herr :
            (loadDirectory env B B.current_path).1.error_message = "" :=
            loadDirectory_error_of_ok env B B.current_path hokB
          cases hidx :
            (loadDirectory env B B.current_path).1.entries.findIdx?
              (fun e => e.name == name) with
          | none => simp [c1, c2, c3, c4, hidx, hasError, herr]
          | some i => simp [c1, c2, c3, c4, hidx, hasError, herr]

lemma renameEntry_true_noError (env : FsEnv) (b : Browser) (i : Nat)
    (n : String) (hok : loadOk env b.current_path = true)
    (h : (renameEntry env b i n).2.1 = true) :
    hasError (renameEntry env b i n).1 = false := by
  unfold renameEntry at h ⊢
  have hokB : loadOk env (clearError b).current_path = true := hok
  generalize hB : clearError b = B at h hokB ⊢
  by_cases c1 : (n == "") = true
  · simp [c1] at h
  · by_cases c2 : hasInvalidChars n = true
    · simp [c1, c2] at h
    · by_cases c3 : env.fsExists (joinPath B.current_path n) = true
      · simp [c1, c2, c3] at h
      · cases hsel : getSelectedPath B with
        | none => simp [c1, c2, c3, hsel] at h
        | some cur =>
          by_cases c4 :
            env.renameFails cur (joinPath B.current_path n) = true
          · simp [c1, c2, c3, hsel, c4] at h
          · have herr :
              (loadDirectory env B B.current_path).1.error_message = "" :=
              loadDirectory_error_of_ok env B B.current_path hokB
            cases hidx :
              (loadDirectory env B B.current_path).1.entries.findIdx?
                (fun e => e.name == n) with
            | none => simp [c1, c2, c3, hsel, c4, hidx, hasError, herr]
            | some j => simp [c1, c2, c3, hsel, c4, hidx, hasError, herr]

lemma removeEntry_true_noError (env : FsEnv) (b : Browser) (i : Nat)
    (hok : loadOk env b.current_path = true)
    (h : (removeEntry env b i).2 = true) :
    hasError (removeEntry env b i).1 = false := by
  have herr : (loadDirectory env b b.current_path).1.error_message = "" :=
    loadDirectory_error_of_ok env b b.current_path hok
  unfold removeEntry at h ⊢
  by_cases hi : i < b.entries.length
  · rw [dif_pos hi] at h ⊢
    dsimp only at h ⊢
    split_ifs at h ⊢ <;> try (simp at h)
    all_goals simp [hasError, herr]
  · rw [dif_neg hi] at h
    simp at h

lemma pasteLoop_success_error (env : FsEnv)
    (hok : ∀ p, loadOk env p = true) :
    ∀ (srcs : List String) (b : Browser), b.error_message = "" →
      (pasteLoop env b srcs).2.1 = true →
      (pasteLoop env b srcs).1.error_message = "" := by
  intro srcs
  induction srcs with
  | nil => intro b hb _; exact hb
  | cons s rest ih =>
    intro b hb htrue
    cases hcf : env.copyFails s b.current_path with
    | true =>
      rw [pasteLoop_cons_fail env b s rest hcf] at htrue
      simp at htrue
    | false =>
      rw [pasteLoop_cons_ok env b s rest hcf] at htrue ⊢
      apply ih (pasteStep env b) ?_ htrue
      unfold pasteStep
      have herr : (loadDirectory env b b.current_path).1.error_message = "" :=
        loadDirectory_error_of_ok env b b.current_path (hok _)
      by_cases he :
        (!(loadDirectory env b b.current_path).1.entries.isEmpty) = true
      · simp [he, herr]
      · simp [he, herr]

lemma executePaste_true_noError (env : FsEnv) (b : Browser)
    (srcs : List String) (cut : Bool) (hok : ∀ p, loadOk env p = true)
    (h : (executePaste env b srcs cut).2.1 = true) :
    hasError (executePaste env b srcs cut).1 = false := by
  unfold executePaste at h ⊢
  cases hs : srcs.isEmpty with
  | true => simp [hs] at h
  | false =>
    simp only [hs, Bool.false_eq_true, if_false] at h ⊢
    exact hasError_of_empty
      (pasteLoop_success_error env hok srcs (clearError b) rfl h)

end ErrorDiscipline

/-- C8 (amended): every mutating operation leaves the error channel fully
determined by the call itself — a stale error never survives (each
operation behaves identically whether or not the previous error is
cleared first; `removeEntry` achieves this by overwriting on every
failure path and reloading on success rather than by clearing at the
start).  After a mutating call that returns true, `hasError()` is false
provided the operation's internal reload succeeded; when that reload
fails the call still returns true with the reload's error set (the C8
counterexample). -/
theorem C8_error_channel :
    (∀ (env : FsEnv) (b : Browser) (path : String),
      loadDirectory env (clearError b) path = loadDirectory env b path) ∧
    (∀ (env : FsEnv) (b : Browser) (name : String),
      createFile env (clearError b) name = createFile env b name) ∧
    (∀ (env : FsEnv) (b : Browser) (name : String),
      createDirectory env (clearError b) name = createDirectory env b name) ∧
    (∀ (env : FsEnv) (b : Browser) (i : Nat) (n : String),
      renameEntry env (clearError b) i n = renameEntry env b i n) ∧
    (∀ (env : FsEnv) (b : Browser) (i : Nat),
      removeEntry env (clearError b) i = removeEntry env b i) ∧
    (∀ (env : FsEnv) (b : Browser) (srcs : List String) (cut : Bool),
      executePaste env (clearError b) srcs cut = executePaste env b srcs cut) ∧
    (∀ (env : FsEnv) (b : Browser) (path : String),
      (loadDirectory env b path).2 = true →
      hasError (loadDirectory env b path).1 = false) ∧
    (∀ (env : FsEnv) (b : Browser) (name : String),
      loadOk env b.current_path = true → (createFile env b name).2 = true →
      hasError (createFile env b name).1 = false) ∧
    (∀ (env : FsEnv) (b : Browser) (name : String),
      loadOk env b.current_path = true →
      (createDirectory env b name).2 = true →
      hasError (createDirectory env b name).1 = false) ∧
    (∀ (env : FsEnv) (b : Browser) (i : Nat) (n : String),
      loadOk env b.current_path = true → (renameEntry env b i n).2.1 = true →
      hasError (renameEntry env b i n).1 = false) ∧
    (∀ (env : FsEnv) (b : Browser) (i : Nat),
      loadOk env b.current_path = true → (removeEntry env b i).2 = true →
      hasError (removeEntry env b i).1 = false) ∧
    (∀ (env : FsEnv) (b : Browser) (srcs : List String) (cut : Bool),
      (∀ p, loadOk env p = true) → (executePaste env b srcs cut).2.1 = true →
      hasError (executePaste env b srcs cut).1 = false) := by
  refine ⟨loadDirectory_clearError, createFile_clearError,
    createDirectory_clearError, renameEntry_clearError,
    removeEntry_clearError, executePaste_clearError, ?_,
    createFile_true_noError, createDirectory_true_noError,
    renameEntry_true_noError, removeEntry_true_noError,
    executePaste_true_noError⟩
  intro env b path h
  exact hasError_of_empty (loadDirectory_success_state env b path h).2.2.1

/-- Witness for C8's amended theorem: a successful removal in a healthy
environment does end with `hasError() = false`, even from a state with a
stale error. -/
theorem C8_error_channel_witness :
    hasError (removeEntry envD { bD with error_message := "old" } 0).1 = false :=
  C8_error_channel.2.2.2.2.2.2.2.2.2.2.1 envD
    { bD with error_message := "old" } 0 (by decide) (by decide)

/-- An environment in which every copy fails. -/
def envCopyFail : FsEnv := { envD with copyFails := fun _ _ => true }

/-- Witness for C7's amended theorem at concrete runs: a failing paste
reports an error, a successful one copies exactly the given sources. -/
theorem C7_paste_copies_only_witness :
    (executePaste envCopyFail bD ["/s1"] false).1.error_message ≠ "" ∧
    (executePaste envD bD ["/s1", "/s2"] false).2.2.filterMap copySrc =
      ["/s1", "/s2"] :=
  ⟨C7_paste_copies_only.2.2.2.2.2 envCopyFail bD ["/s1"] false (by decide),
   C7_paste_copies_only.2.2.2.2.1 envD bD ["/s1", "/s2"] false (by decide)⟩

end Flux
